import Mathlib

/-!
Shallow embedding of the ankiplace core (src/main.py): the SQLite-backed
canvas store, user ledger, and proof-deduplication/award engine, together
with verification of the frozen specification claims.

Modelling conventions:
* SQLite INTEGER columns become `Int`; REAL timestamp columns are modelled
  as `Int` ticks (the code only stores and compares them for equality in
  the `review_proofs` primary key, never does arithmetic on them).
* The three durable tables become the three fields of `ServerState`:
  `users` (keyed map, users table), `canvas` (function on coordinates,
  canvas table), `proofs` (list of keys, review_proofs table; the code's
  SELECT-then-INSERT discipline means the list never holds duplicates).
* Each HTTP handler becomes a function from the pre-state and the request
  arguments to `Except ApiError` of its result; `time.time()` becomes an
  explicit `now` argument.  An error return corresponds to the Python
  path that raises `HTTPException` before `conn.commit()`, so the
  database is untouched; `paintExec`/`submitState` expose the post-state
  of a whole request (identity on the error path).
-/

namespace AnkiPlace

abbrev UserId := String
abbrev CardId := Int
abbrev Timestamp := Int

/-- One row of the `users` table (the `user_id` primary key is the lookup
key of `ServerState.users`). `paint_balance INTEGER DEFAULT 0`. -/
structure UserRow where
  username : String
  paint_balance : Int
  created_at : Timestamp
deriving DecidableEq, Repr

/-- One row of the `canvas` table (the `(x, y)` primary key is the argument
of `ServerState.canvas`). -/
structure Cell where
  color : Int
  last_user_id : Option UserId
  last_modified : Timestamp
deriving DecidableEq, Repr

/-- Primary key of the `review_proofs` table: `(user_id, card_id, timestamp)`. -/
abbrev ProofKey := UserId × CardId × Timestamp

/-- The persistent state: the three SQLite tables. -/
structure ServerState where
  users : UserId → Option UserRow
  canvas : Int → Int → Cell
  proofs : List ProofKey

/-- The error kinds raised by the handlers (HTTP 400/404/403 conditions). -/
inductive ApiError where
  | OutOfBounds
  | InvalidColor
  | NotFound
  | InsufficientFunds
deriving DecidableEq, Repr

/-- `init_db` pre-populates every cell with color 0, no editor, timestamp 0. -/
def initCell : Cell := ⟨0, none, 0⟩

/-- Fresh database produced by `init_db`: no users, all cells initial,
no recorded proofs. -/
def initState : ServerState :=
  { users := fun _ => none
    canvas := fun _ _ => initCell
    proofs := [] }

/-- `paint_pixel` (POST /paint): bounds check, color check, user lookup,
balance check, then the canvas UPDATE and the balance UPDATE committed
together. -/
def paint_pixel (s : ServerState) (x y color : Int) (user_id : UserId)
    (now : Timestamp) : Except ApiError ServerState :=
  if ¬ (0 ≤ x ∧ x < 32 ∧ 0 ≤ y ∧ y < 32) then
    .error .OutOfBounds
  else if ¬ (0 ≤ color ∧ color < 16) then
    .error .InvalidColor
  else
    match s.users user_id with
    | none => .error .NotFound
    | some u =>
      if u.paint_balance < 1 then
        .error .InsufficientFunds
      else
        .ok { s with
          canvas := fun cx cy =>
            if cx = x ∧ cy = y then ⟨color, some user_id, now⟩
            else s.canvas cx cy
          users := fun uid =>
            if uid = user_id then
              some { u with paint_balance := u.paint_balance - 1 }
            else s.users uid }

/-- The database state after a whole /paint request: the new state on
success, the untouched pre-state when the handler raised before commit. -/
def paintExec (s : ServerState) (x y color : Int) (user_id : UserId)
    (now : Timestamp) : ServerState :=
  match paint_pixel s x y color user_id now with
  | .ok s' => s'
  | .error _ => s

/-- The error (if any) a /paint request fails with. -/
def paintErr (s : ServerState) (x y color : Int) (user_id : UserId)
    (now : Timestamp) : Option ApiError :=
  match paint_pixel s x y color user_id now with
  | .ok _ => none
  | .error e => some e

/-- `register_user` (POST /user): INSERT of a fresh row with balance 0
(`DEFAULT 0`).  A colliding `user_id` violates the primary key and the
INSERT fails (`none`); the uuid4 identifier makes this negligible. -/
def register_user (s : ServerState) (new_id : UserId) (username : String)
    (now : Timestamp) : Option ServerState :=
  match s.users new_id with
  | some _ => none
  | none =>
    some { s with
      users := fun uid =>
        if uid = new_id then some ⟨username, 0, now⟩ else s.users uid }

/-- The SELECT-then-INSERT step of `submit_reviews` for one proof:
record the key if absent, report whether it was new. -/
def record_if_new (store : List ProofKey) (key : ProofKey) :
    List ProofKey × Bool :=
  if key ∈ store then (store, false) else (key :: store, true)

/-- The proof loop of `submit_reviews`: fold `record_if_new` over the
submitted batch in order, counting the newly recorded proofs. -/
def recordBatch (store : List ProofKey) (uid : UserId) :
    List (CardId × Timestamp) → List ProofKey × Nat
  | [] => (store, 0)
  | p :: ps =>
    let r := record_if_new store (uid, p.1, p.2)
    let rest := recordBatch r.1 uid ps
    (rest.1, rest.2 + if r.2 then 1 else 0)

/-- `submit_reviews` (POST /submit-reviews): user existence check first,
then the dedup loop, then `paint_awarded = new_proofs_count // 10` and a
conditional balance UPDATE.  Returns `(state, new_proofs, paint_awarded)`. -/
def submit_reviews (s : ServerState) (user_id : UserId)
    (proofs : List (CardId × Timestamp)) :
    Except ApiError (ServerState × Nat × Nat) :=
  match s.users user_id with
  | none => .error .NotFound
  | some u =>
    let r := recordBatch s.proofs user_id proofs
    let paint_awarded := r.2 / 10
    let users' : UserId → Option UserRow :=
      if 0 < paint_awarded then
        fun uid =>
          if uid = user_id then
            some { u with paint_balance := u.paint_balance + paint_awarded }
          else s.users uid
      else s.users
    .ok ({ s with proofs := r.1, users := users' }, r.2, paint_awarded)

/-- The database state after a whole /submit-reviews request. -/
def submitState (s : ServerState) (user_id : UserId)
    (proofs : List (CardId × Timestamp)) : ServerState :=
  match submit_reviews s user_id proofs with
  | .ok (s', _, _) => s'
  | .error _ => s

/-- The `(new_proofs, paint_awarded)` counters of a successful
/submit-reviews request. -/
def submitNums (s : ServerState) (user_id : UserId)
    (proofs : List (CardId × Timestamp)) : Option (Nat × Nat) :=
  match submit_reviews s user_id proofs with
  | .ok (_, n, a) => some (n, a)
  | .error _ => none

/-- `get_balance` (GET /user/\x7buser_id\x7d/balance). -/
def get_balance (s : ServerState) (user_id : UserId) : Except ApiError Int :=
  match s.users user_id with
  | none => .error .NotFound
  | some u => .ok u.paint_balance

/-- The canvas rows as `init_db` inserted them (x outer, y inner), which is
the order the unordered SELECT in `get_canvas` returns them. -/
def canvasRows : List (Int × Int) :=
  (List.range 32).flatMap fun x =>
    (List.range 32).map fun (y : Nat) => ((x : Int), (y : Int))

/-- Loop body of `get_canvas`: place one row's color at `idx = y * 32 + x`,
guarded by `0 <= idx < 1024`. -/
def placeRow (s : ServerState) (grid : List Int) (p : Int × Int) : List Int :=
  let idx := p.2 * 32 + p.1
  if 0 ≤ idx ∧ idx < 1024 then grid.set idx.toNat (s.canvas p.1 p.2).color
  else grid

/-- `get_canvas` (GET /canvas): start from `[0] * (32 * 32)` and place each
fetched row's color at its row-major index. -/
def get_canvas (s : ServerState) : List Int :=
  canvasRows.foldl (placeRow s) (List.replicate (32 * 32) 0)

/-- The states reachable from the fresh database by the mutating public
operations (the read operations do not change state). -/
inductive Reachable : ServerState → Prop where
  | init : Reachable initState
  | register (s : ServerState) (new_id : UserId) (username : String)
      (now : Timestamp) (s' : ServerState) :
      Reachable s → register_user s new_id username now = some s' →
      Reachable s'
  | paint (s : ServerState) (x y color : Int) (user_id : UserId)
      (now : Timestamp) (s' : ServerState) :
      Reachable s → paint_pixel s x y color user_id now = .ok s' →
      Reachable s'
  | submit (s : ServerState) (user_id : UserId)
      (proofs : List (CardId × Timestamp)) (s' : ServerState) (n a : Nat) :
      Reachable s → submit_reviews s user_id proofs = .ok (s', n, a) →
      Reachable s'

/-- A concrete state for witnesses: one user `"u"` with balance 5. -/
def richState : ServerState :=
  { users := fun uid => if uid = "u" then some ⟨"U", 5, 0⟩ else none
    canvas := fun _ _ => initCell
    proofs := [] }

/-- A concrete state for witnesses: one user `"u"` with balance 0. -/
def poorState : ServerState :=
  { users := fun uid => if uid = "u" then some ⟨"U", 0, 0⟩ else none
    canvas := fun _ _ => initCell
    proofs := [] }

/-- `n` pairwise distinct proof tokens with card ids `lo, lo+1, …`. -/
def batch (lo n : Nat) : List (CardId × Timestamp) :=
  (List.range n).map fun i => (((lo + i : Nat) : Int), 0)

/-- A reachable state with one registered user, used as a witness state. -/
def regState : ServerState :=
  (register_user initState "alice" "Alice" 5).getD initState

/-! ### Equation and inversion lemmas for the handlers -/

theorem recordBatch_cons_mem {store : List ProofKey} {uid : UserId}
    {p : CardId × Timestamp} (ps : List (CardId × Timestamp))
    (h : (uid, p.1, p.2) ∈ store) :
    recordBatch store uid (p :: ps) = recordBatch store uid ps := by
  simp [recordBatch, record_if_new, h]

theorem recordBatch_cons_not_mem {store : List ProofKey} {uid : UserId}
    {p : CardId × Timestamp} (ps : List (CardId × Timestamp))
    (h : (uid, p.1, p.2) ∉ store) :
    recordBatch store uid (p :: ps) =
      ((recordBatch ((uid, p.1, p.2) :: store) uid ps).1,
       (recordBatch ((uid, p.1, p.2) :: store) uid ps).2 + 1) := by
  simp [recordBatch, record_if_new, h]

theorem recordBatch_mono (uid : UserId) (ps : List (CardId × Timestamp)) :
    ∀ store k, k ∈ store → k ∈ (recordBatch store uid ps).1 := by
  induction ps with
  | nil => intro store k hk; exact hk
  | cons p ps ih =>
    intro store k hk
    by_cases h : (uid, p.1, p.2) ∈ store
    · rw [recordBatch_cons_mem ps h]; exact ih store k hk
    · rw [recordBatch_cons_not_mem ps h]
      exact ih _ k (List.mem_cons_of_mem _ hk)

theorem recordBatch_complete (uid : UserId) (ps : List (CardId × Timestamp)) :
    ∀ store p, p ∈ ps → (uid, p.1, p.2) ∈ (recordBatch store uid ps).1 := by
  induction ps with
  | nil => intro store p hp; cases hp
  | cons q ps ih =>
    intro store p hp
    rcases List.mem_cons.mp hp with h | h
    · subst h
      by_cases hm : (uid, p.1, p.2) ∈ store
      · rw [recordBatch_cons_mem ps hm]
        exact recordBatch_mono uid ps store _ hm
      · rw [recordBatch_cons_not_mem ps hm]
        exact recordBatch_mono uid ps _ _ (List.mem_cons_self _ _)
    · by_cases hm : (uid, q.1, q.2) ∈ store
      · rw [recordBatch_cons_mem ps hm]; exact ih store p h
      · rw [recordBatch_cons_not_mem ps hm]; exact ih _ p h

theorem recordBatch_all_mem (uid : UserId) (ps : List (CardId × Timestamp)) :
    ∀ store, (∀ p ∈ ps, (uid, p.1, p.2) ∈ store) →
      recordBatch store uid ps = (store, 0) := by
  induction ps with
  | nil => intro store _; rfl
  | cons p ps ih =>
    intro store h
    rw [recordBatch_cons_mem ps (h p (List.mem_cons_self _ _))]
    exact ih store fun q hq => h q (List.mem_cons_of_mem _ hq)

theorem submit_reviews_some (s : ServerState) (uid : UserId)
    (ps : List (CardId × Timestamp)) (u : UserRow)
    (hu : s.users uid = some u) :
    submit_reviews s uid ps =
      .ok ({ s with
              proofs := (recordBatch s.proofs uid ps).1
              users :=
                if 0 < (recordBatch s.proofs uid ps).2 / 10 then
                  fun v =>
                    if v = uid then
                      some { u with paint_balance :=
                        u.paint_balance + ((recordBatch s.proofs uid ps).2 / 10 : Nat) }
                    else s.users v
                else s.users },
            (recordBatch s.proofs uid ps).2,
            (recordBatch s.proofs uid ps).2 / 10) := by
  unfold submit_reviews
  simp only [hu]

theorem submit_reviews_none (s : ServerState) (uid : UserId)
    (ps : List (CardId × Timestamp)) (hu : s.users uid = none) :
    submit_reviews s uid ps = .error .NotFound := by
  unfold submit_reviews
  simp only [hu]

theorem paint_pixel_oob (s : ServerState) (x y c : Int) (uid : UserId)
    (now : Timestamp) (hxy : ¬ (0 ≤ x ∧ x < 32 ∧ 0 ≤ y ∧ y < 32)) :
    paint_pixel s x y c uid now = .error .OutOfBounds := by
  unfold paint_pixel
  rw [if_pos hxy]

theorem paint_pixel_badcolor (s : ServerState) (x y c : Int) (uid : UserId)
    (now : Timestamp) (hxy : 0 ≤ x ∧ x < 32 ∧ 0 ≤ y ∧ y < 32)
    (hc : ¬ (0 ≤ c ∧ c < 16)) :
    paint_pixel s x y c uid now = .error .InvalidColor := by
  unfold paint_pixel
  rw [if_neg (not_not_intro hxy), if_pos hc]

theorem paint_pixel_nouser (s : ServerState) (x y c : Int) (uid : UserId)
    (now : Timestamp) (hxy : 0 ≤ x ∧ x < 32 ∧ 0 ≤ y ∧ y < 32)
    (hc : 0 ≤ c ∧ c < 16) (hu : s.users uid = none) :
    paint_pixel s x y c uid now = .error .NotFound := by
  unfold paint_pixel
  rw [if_neg (not_not_intro hxy), if_neg (not_not_intro hc)]
  simp only [hu]

theorem paint_pixel_broke (s : ServerState) (x y c : Int) (uid : UserId)
    (now : Timestamp) (u : UserRow) (hxy : 0 ≤ x ∧ x < 32 ∧ 0 ≤ y ∧ y < 32)
    (hc : 0 ≤ c ∧ c < 16) (hu : s.users uid = some u)
    (hb : u.paint_balance < 1) :
    paint_pixel s x y c uid now = .error .InsufficientFunds := by
  unfold paint_pixel
  rw [if_neg (not_not_intro hxy), if_neg (not_not_intro hc)]
  simp only [hu]
  rw [if_pos hb]

theorem paint_pixel_some (s : ServerState) (x y c : Int) (uid : UserId)
    (now : Timestamp) (u : UserRow) (hxy : 0 ≤ x ∧ x < 32 ∧ 0 ≤ y ∧ y < 32)
    (hc : 0 ≤ c ∧ c < 16) (hu : s.users uid = some u)
    (hb : ¬ u.paint_balance < 1) :
    paint_pixel s x y c uid now =
      .ok { s with
            canvas := fun cx cy =>
              if cx = x ∧ cy = y then ⟨c, some uid, now⟩ else s.canvas cx cy
            users := fun v =>
              if v = uid then
                some { u with paint_balance := u.paint_balance - 1 }
              else s.users v } := by
  unfold paint_pixel
  rw [if_neg (not_not_intro hxy), if_neg (not_not_intro hc)]
  simp only [hu]
  rw [if_neg hb]

theorem paint_pixel_ok_inv {s : ServerState} {x y c : Int} {uid : UserId}
    {now : Timestamp} {s' : ServerState}
    (h : paint_pixel s x y c uid now = .ok s') :
    ∃ u, s.users uid = some u ∧
      (0 ≤ x ∧ x < 32 ∧ 0 ≤ y ∧ y < 32) ∧ (0 ≤ c ∧ c < 16) ∧
      ¬ u.paint_balance < 1 ∧
      s' = { s with
            canvas := fun cx cy =>
              if cx = x ∧ cy = y then ⟨c, some uid, now⟩ else s.canvas cx cy
            users := fun v =>
              if v = uid then
                some { u with paint_balance := u.paint_balance - 1 }
              else s.users v } := by
  by_cases hxy : 0 ≤ x ∧ x < 32 ∧ 0 ≤ y ∧ y < 32
  · by_cases hc : 0 ≤ c ∧ c < 16
    · cases hu : s.users uid with
      | none => rw [paint_pixel_nouser s x y c uid now hxy hc hu] at h; cases h
      | some u =>
        by_cases hb : u.paint_balance < 1
        · rw [paint_pixel_broke s x y c uid now u hxy hc hu hb] at h; cases h
        · rw [paint_pixel_some s x y c uid now u hxy hc hu hb] at h
          injection h with h'
          exact ⟨u, rfl, hxy, hc, hb, h'.symm⟩
    · rw [paint_pixel_badcolor s x y c uid now hxy hc] at h; cases h
  · rw [paint_pixel_oob s x y c uid now hxy] at h; cases h

theorem submit_reviews_ok_inv {s : ServerState} {uid : UserId}
    {ps : List (CardId × Timestamp)} {s' : ServerState} {n a : Nat}
    (h : submit_reviews s uid ps = .ok (s', n, a)) :
    ∃ u, s.users uid = some u ∧
      n = (recordBatch s.proofs uid ps).2 ∧ a = n / 10 ∧
      s' = { s with
              proofs := (recordBatch s.proofs uid ps).1
              users :=
                if 0 < a then
                  fun v =>
                    if v = uid then
                      some { u with paint_balance := u.paint_balance + (a : Int) }
                    else s.users v
                else s.users } := by
  cases hu : s.users uid with
  | none => rw [submit_reviews_none s uid ps hu] at h; cases h
  | some u =>
    rw [submit_reviews_some s uid ps u hu] at h
    injection h with h'
    have hs := congrArg Prod.fst h'
    have hn := congrArg (fun q : ServerState × Nat × Nat => q.2.1) h'
    have ha := congrArg (fun q : ServerState × Nat × Nat => q.2.2) h'
    simp only at hs hn ha
    refine ⟨u, rfl, hn.symm, ?_, ?_⟩
    · rw [← ha, ← hn]
    · rw [← hs, ← ha]

theorem paintErr_ok {s : ServerState} {x y c : Int} {uid : UserId}
    {now : Timestamp} {s' : ServerState}
    (hp : paint_pixel s x y c uid now = .ok s') :
    paintErr s x y c uid now = none := by
  unfold paintErr
  rw [hp]

theorem paintErr_error {s : ServerState} {x y c : Int} {uid : UserId}
    {now : Timestamp} {e : ApiError}
    (hp : paint_pixel s x y c uid now = .error e) :
    paintErr s x y c uid now = some e := by
  unfold paintErr
  rw [hp]

theorem paintExec_error {s : ServerState} {x y c : Int} {uid : UserId}
    {now : Timestamp} {e : ApiError}
    (hp : paint_pixel s x y c uid now = .error e) :
    paintExec s x y c uid now = s := by
  unfold paintExec
  rw [hp]

theorem paintErr_inbounds (s : ServerState) (x y c : Int) (uid : UserId)
    (now : Timestamp) (hxy : 0 ≤ x ∧ x < 32 ∧ 0 ≤ y ∧ y < 32)
    (hc : 0 ≤ c ∧ c < 16) :
    paintErr s x y c uid now = none ∨
    paintErr s x y c uid now = some .NotFound ∨
    paintErr s x y c uid now = some .InsufficientFunds := by
  cases hu : s.users uid with
  | none =>
    exact .inr (.inl (paintErr_error (paint_pixel_nouser s x y c uid now hxy hc hu)))
  | some u =>
    by_cases hb : u.paint_balance < 1
    · exact .inr (.inr (paintErr_error (paint_pixel_broke s x y c uid now u hxy hc hu hb)))
    · exact .inl (paintErr_ok (paint_pixel_some s x y c uid now u hxy hc hu hb))

/-! ### The claims -/

/-- C2: for an existing user, a successful Paint leaves the user's balance
at exactly one less than before; Paint never succeeds when the balance is
0, and with in-range coordinates and color the zero-balance failure is
exactly InsufficientFunds. -/
theorem paint_conservation (s : ServerState) (x y c : Int) (uid : UserId)
    (now : Timestamp) (u : UserRow) (hu : s.users uid = some u) :
    (∀ s', paint_pixel s x y c uid now = .ok s' →
      ∃ u', s'.users uid = some u' ∧
        u'.paint_balance = u.paint_balance - 1) ∧
    (u.paint_balance = 0 → ∀ s', paint_pixel s x y c uid now ≠ .ok s') ∧
    (u.paint_balance = 0 → (0 ≤ x ∧ x < 32 ∧ 0 ≤ y ∧ y < 32) →
      (0 ≤ c ∧ c < 16) →
      paint_pixel s x y c uid now = .error .InsufficientFunds) := by
  refine ⟨?_, ?_, ?_⟩
  · intro s' h
    obtain ⟨u₀, hu₀, _, _, _, hs'⟩ := paint_pixel_ok_inv h
    have e : u = u₀ := by
      have h' := hu.symm.trans hu₀
      injection h'
    subst e
    subst hs'
    exact ⟨{ u with paint_balance := u.paint_balance - 1 }, by simp, rfl⟩
  · intro hz s' h
    obtain ⟨u₀, hu₀, _, _, hb, _⟩ := paint_pixel_ok_inv h
    have e : u = u₀ := by
      have h' := hu.symm.trans hu₀
      injection h'
    subst e
    omega
  · intro hz hxy hc
    exact paint_pixel_broke s x y c uid now u hxy hc hu (by omega)

/-- C2 witness: painting from balance 5 leaves balance 4; painting from
balance 0 cannot succeed and fails with InsufficientFunds. -/
theorem paint_conservation_witness :
    (∃ u', (paintExec richState 0 0 15 "u" 9).users "u" = some u' ∧
      u'.paint_balance = (5 : Int) - 1) ∧
    paint_pixel poorState 0 0 15 "u" 9 ≠ .ok poorState ∧
    paint_pixel poorState 0 0 15 "u" 9 = .error .InsufficientFunds := by
  refine ⟨?_, ?_, ?_⟩
  · exact (paint_conservation richState 0 0 15 "u" 9 ⟨"U", 5, 0⟩ rfl).1
      (paintExec richState 0 0 15 "u" 9) rfl
  · exact (paint_conservation poorState 0 0 15 "u" 9 ⟨"U", 0, 0⟩ rfl).2.1
      rfl poorState
  · exact (paint_conservation poorState 0 0 15 "u" 9 ⟨"U", 0, 0⟩ rfl).2.2
      rfl (by decide) (by decide)

/-- C3: a Paint request that fails with InsufficientFunds or NotFound
leaves the whole database state (canvas, users, proofs) exactly as it was:
the handler raises before issuing any UPDATE. -/
theorem paint_error_atomic (s : ServerState) (x y c : Int) (uid : UserId)
    (now : Timestamp) (e : ApiError)
    (h : paintErr s x y c uid now = some e)
    (_he : e = .InsufficientFunds ∨ e = .NotFound) :
    paintExec s x y c uid now = s := by
  cases hp : paint_pixel s x y c uid now with
  | ok s' =>
    rw [paintErr_ok hp] at h
    cases h
  | error e' => exact paintExec_error hp

/-- C3 witness: a paint attempt with balance 0 fails InsufficientFunds and
changes nothing. -/
theorem paint_error_atomic_witness :
    paintExec poorState 0 0 15 "u" 9 = poorState :=
  paint_error_atomic poorState 0 0 15 "u" 9 .InsufficientFunds rfl (Or.inl rfl)

/-- C6: SubmitProofs for an unknown user fails NotFound for every proof
list (the user check precedes the proof loop), recording nothing and
changing no balance. -/
theorem submit_unknown_user (s : ServerState) (uid : UserId)
    (ps : List (CardId × Timestamp)) (hu : s.users uid = none) :
    submit_reviews s uid ps = .error .NotFound ∧ submitState s uid ps = s := by
  refine ⟨submit_reviews_none s uid ps hu, ?_⟩
  unfold submitState
  rw [submit_reviews_none s uid ps hu]

/-- C6 witness: submitting three proofs for an unregistered id fails
NotFound and leaves the state unchanged. -/
theorem submit_unknown_user_witness :
    submit_reviews richState "ghost" (batch 0 3) = .error .NotFound ∧
    submitState richState "ghost" (batch 0 3) = richState :=
  submit_unknown_user richState "ghost" (batch 0 3) rfl

/-- C9: a successful Paint changes only the target cell and the painter's
balance: all other cells, all other users, the painter's username and
creation timestamp, and the proof store are untouched. -/
theorem paint_frame (s : ServerState) (x y c : Int) (uid : UserId)
    (now : Timestamp) (s' : ServerState)
    (h : paint_pixel s x y c uid now = .ok s') :
    (∀ cx cy, ¬ (cx = x ∧ cy = y) → s'.canvas cx cy = s.canvas cx cy) ∧
    (∀ v, v ≠ uid → s'.users v = s.users v) ∧
    (∃ u u', s.users uid = some u ∧ s'.users uid = some u' ∧
      u'.username = u.username ∧ u'.created_at = u.created_at) ∧
    s'.proofs = s.proofs := by
  obtain ⟨u, hu, _, _, _, hs'⟩ := paint_pixel_ok_inv h
  subst hs'
  refine ⟨?_, ?_, ⟨u, { u with paint_balance := u.paint_balance - 1 },
    hu, by simp, rfl, rfl⟩, rfl⟩
  · intro cx cy hne
    simp [hne]
  · intro v hv
    simp [hv]

/-- C9 witness: after painting (0,0), cell (3,4), a stranger's account, and
the proof store are untouched, and the painter keeps name and creation
time. -/
theorem paint_frame_witness :
    (paintExec richState 0 0 15 "u" 9).canvas 3 4 = richState.canvas 3 4 ∧
    (paintExec richState 0 0 15 "u" 9).users "w" = richState.users "w" ∧
    (∃ u u', richState.users "u" = some u ∧
      (paintExec richState 0 0 15 "u" 9).users "u" = some u' ∧
      u'.username = u.username ∧ u'.created_at = u.created_at) ∧
    (paintExec richState 0 0 15 "u" 9).proofs = richState.proofs := by
  have H := paint_frame richState 0 0 15 "u" 9
    (paintExec richState 0 0 15 "u" 9) rfl
  exact ⟨H.1 3 4 (by decide), H.2.1 "w" (by decide), H.2.2.1, H.2.2.2⟩

/-- C10: SubmitProofs with an empty proof list succeeds for an existing
user, returns (0, 0), and leaves the state unchanged. -/
theorem submit_empty_noop (s : ServerState) (uid : UserId) (u : UserRow)
    (hu : s.users uid = some u) :
    submit_reviews s uid [] = .ok (s, 0, 0) := by
  rw [submit_reviews_some s uid [] u hu]
  have h0 : recordBatch s.proofs uid [] = (s.proofs, 0) := rfl
  rw [h0]
  simp

/-- C10 witness: the empty submission on a concrete state. -/
theorem submit_empty_noop_witness :
    submit_reviews richState "u" [] = .ok (richState, 0, 0) :=
  submit_empty_noop richState "u" ⟨"U", 5, 0⟩ rfl

/-- C1: submitting the same proof list twice credits only once: the second
call returns new_count = 0 and awarded = 0 and does not change the state,
and the balance after both calls is the initial balance plus the first
call's award. -/
theorem submit_reviews_idempotent (s : ServerState) (uid : UserId)
    (u : UserRow) (ps : List (CardId × Timestamp)) (s₁ : ServerState)
    (n₁ a₁ : Nat) (hu : s.users uid = some u)
    (h₁ : submit_reviews s uid ps = .ok (s₁, n₁, a₁)) :
    submit_reviews s₁ uid ps = .ok (s₁, 0, 0) ∧
    get_balance s₁ uid = .ok (u.paint_balance + (a₁ : Int)) := by
  obtain ⟨u₀, hu₀, hn, ha, hs₁⟩ := submit_reviews_ok_inv h₁
  have e : u = u₀ := by
    have h' := hu.symm.trans hu₀
    injection h'
  subst e
  have hproofs : s₁.proofs = (recordBatch s.proofs uid ps).1 := by rw [hs₁]
  obtain ⟨u₁, hu₁, hbal₁⟩ : ∃ u₁, s₁.users uid = some u₁ ∧
      u₁.paint_balance = u.paint_balance + (a₁ : Int) := by
    by_cases hpos : 0 < a₁
    · refine ⟨{ u with paint_balance := u.paint_balance + (a₁ : Int) }, ?_, rfl⟩
      rw [hs₁]
      simp [hpos]
    · refine ⟨u, ?_, ?_⟩
      · rw [hs₁]
        simpa [hpos] using hu
      · have hz : a₁ = 0 := by omega
        simp [hz]
  have hall : ∀ p ∈ ps, (uid, p.1, p.2) ∈ s₁.proofs := by
    intro p hp
    rw [hproofs]
    exact recordBatch_complete uid ps s.proofs p hp
  have hrec : recordBatch s₁.proofs uid ps = (s₁.proofs, 0) :=
    recordBatch_all_mem uid ps s₁.proofs hall
  constructor
  · rw [submit_reviews_some s₁ uid ps u₁ hu₁, hrec]
    simp
  · unfold get_balance
    simp only [hu₁]
    rw [hbal₁]

/-- C1 witness: 25 fresh proofs award 2, and an immediate identical
resubmission yields (0, 0) and a final balance of 5 + 2. -/
theorem submit_reviews_idempotent_witness :
    submit_reviews (submitState richState "u" (batch 0 25)) "u" (batch 0 25) =
      .ok (submitState richState "u" (batch 0 25), 0, 0) ∧
    get_balance (submitState richState "u" (batch 0 25)) "u" = .ok 7 :=
  submit_reviews_idempotent richState "u" ⟨"U", 5, 0⟩ (batch 0 25)
    (submitState richState "u" (batch 0 25)) 25 2 rfl rfl

set_option maxRecDepth 8000 in
/-- C4: awarded is always new_count / 10 by Nat (floor) division, with no
banking across calls; concretely 25 fresh proofs in one call award 2,
10-then-15 award 1 then 1, 5-then-20 award 0 then 2, 9-then-16 award 0
then 1. -/
theorem award_floor_division :
    (∀ s uid ps s' n a, submit_reviews s uid ps = .ok (s', n, a) →
      a = n / 10) ∧
    submitNums richState "u" (batch 0 25) = some (25, 2) ∧
    (submitNums richState "u" (batch 0 10) = some (10, 1) ∧
      submitNums (submitState richState "u" (batch 0 10)) "u" (batch 10 15) =
        some (15, 1)) ∧
    (submitNums richState "u" (batch 0 5) = some (5, 0) ∧
      submitNums (submitState richState "u" (batch 0 5)) "u" (batch 5 20) =
        some (20, 2)) ∧
    (submitNums richState "u" (batch 0 9) = some (9, 0) ∧
      submitNums (submitState richState "u" (batch 0 9)) "u" (batch 9 16) =
        some (16, 1)) := by
  refine ⟨?_, by decide, ⟨by decide, by decide⟩, ⟨by decide, by decide⟩,
    ⟨by decide, by decide⟩⟩
  intro s uid ps s' n a h
  obtain ⟨u, _, hn, ha, _⟩ := submit_reviews_ok_inv h
  exact ha

/-- C4 witness: the universally quantified part applied to the concrete
25-proof call. -/
theorem award_floor_division_witness : (2 : Nat) = 25 / 10 :=
  award_floor_division.1 richState "u" (batch 0 25)
    (submitState richState "u" (batch 0 25)) 25 2 rfl

/-- C5: in every state reachable by the public operations, every stored
balance is non-negative. -/
theorem balances_nonneg (s : ServerState) (hs : Reachable s) :
    ∀ uid u, s.users uid = some u → 0 ≤ u.paint_balance := by
  induction hs with
  | init =>
    intro uid u h
    exact absurd h (by simp [initState])
  | register s0 id name now s' _ hreg ih =>
    intro uid u h
    unfold register_user at hreg
    cases hlook : s0.users id with
    | some w =>
      rw [hlook] at hreg
      cases hreg
    | none =>
      rw [hlook] at hreg
      injection hreg with hreg
      subst hreg
      by_cases hid : uid = id
      · simp only [hid, if_pos rfl] at h
        injection h with h
        subst h
        exact le_refl 0
      · simp only [if_neg hid] at h
        exact ih uid u h
  | paint s0 x y c uid0 now s' _ hp ih =>
    intro uid u h
    obtain ⟨w, hw, _, _, hb, hs'⟩ := paint_pixel_ok_inv hp
    subst hs'
    by_cases hid : uid = uid0
    · simp only [hid, if_pos rfl] at h
      injection h with h
      subst h
      have := ih uid0 w hw
      show 0 ≤ w.paint_balance - 1
      omega
    · simp only [if_neg hid] at h
      exact ih uid u h
  | submit s0 uid0 ps s' n a _ hsub ih =>
    intro uid u h
    obtain ⟨w, hw, hn, ha, hs'⟩ := submit_reviews_ok_inv hsub
    subst hs'
    by_cases hpos : 0 < a
    · simp only [if_pos hpos] at h
      by_cases hid : uid = uid0
      · simp only [hid, if_pos rfl] at h
        injection h with h
        subst h
        have := ih uid0 w hw
        have hcast : (0 : Int) ≤ (a : Int) := Int.natCast_nonneg a
        show 0 ≤ w.paint_balance + (a : Int)
        omega
      · simp only [if_neg hid] at h
        exact ih uid u h
    · simp only [if_neg hpos] at h
      exact ih uid u h

/-- C5 witness: the freshly registered user's balance in a concrete
reachable state is non-negative. -/
theorem balances_nonneg_witness :
    0 ≤ (UserRow.mk "Alice" 0 5).paint_balance :=
  balances_nonneg regState
    (Reachable.register initState "alice" "Alice" 5 regState
      Reachable.init rfl)
    "alice" ⟨"Alice", 0, 5⟩ rfl

/-- C8 counterexample: at Paint(32, 0, 16, "u") the color 16 is outside
[0, 16), yet the call fails with OutOfBounds, not InvalidColor — the
bounds check runs before the color check, so "fails with InvalidColor
exactly when the color is outside [0, 16)" is false as a biconditional
over all inputs. -/
theorem paint_validation_counterexample :
    ¬ ((0 : Int) ≤ 16 ∧ (16 : Int) < 16) ∧
    paintErr richState 32 0 16 "u" 0 = some .OutOfBounds ∧
    (some ApiError.OutOfBounds ≠ some ApiError.InvalidColor) := by
  refine ⟨by decide, rfl, by decide⟩

/-- C8 (amended): Paint fails with OutOfBounds exactly when x or y is
outside [0, 32); given in-range coordinates it fails with InvalidColor
exactly when the color is outside [0, 16); and Paint(0, 0, 15, u)
succeeds for an existing user with positive balance. -/
theorem paint_validation (s : ServerState) (x y c : Int) (uid : UserId)
    (now : Timestamp) :
    (paintErr s x y c uid now = some .OutOfBounds ↔
      ¬ (0 ≤ x ∧ x < 32 ∧ 0 ≤ y ∧ y < 32)) ∧
    ((0 ≤ x ∧ x < 32 ∧ 0 ≤ y ∧ y < 32) →
      (paintErr s x y c uid now = some .InvalidColor ↔
        ¬ (0 ≤ c ∧ c < 16))) ∧
    (∀ u, s.users uid = some u → 0 < u.paint_balance →
      ∃ s', paint_pixel s 0 0 15 uid now = .ok s') := by
  refine ⟨⟨?_, ?_⟩, ?_, ?_⟩
  · intro h
    by_contra hxy
    by_cases hc : 0 ≤ c ∧ c < 16
    · rcases paintErr_inbounds s x y c uid now hxy hc with h' | h' | h' <;>
        rw [h'] at h <;> exact absurd h (by decide)
    · rw [paintErr_error (paint_pixel_badcolor s x y c uid now hxy hc)] at h
      exact absurd h (by decide)
  · intro hxy
    exact paintErr_error (paint_pixel_oob s x y c uid now hxy)
  · intro hxy
    constructor
    · intro h
      by_contra hc
      rcases paintErr_inbounds s x y c uid now hxy hc with h' | h' | h' <;>
        rw [h'] at h <;> exact absurd h (by decide)
    · intro hc
      exact paintErr_error (paint_pixel_badcolor s x y c uid now hxy hc)
  · intro u hu hb
    exact ⟨_, paint_pixel_some s 0 0 15 uid now u (by decide) (by decide)
      hu (by omega)⟩

/-- C8 witness: with in-range coordinates, color 16 does fail
InvalidColor, and Paint(0, 0, 15, "u") succeeds on a funded account. -/
theorem paint_validation_witness :
    (paintErr richState 0 0 16 "u" 0 = some .InvalidColor ↔
      ¬ ((0 : Int) ≤ 16 ∧ (16 : Int) < 16)) ∧
    (∃ s', paint_pixel richState 0 0 15 "u" 0 = .ok s') :=
  ⟨(paint_validation richState 0 0 16 "u" 0).2.1 (by decide),
   (paint_validation richState 0 0 15 "u" 0).2.2 ⟨"U", 5, 0⟩ rfl (by decide)⟩

theorem placeRow_length (s : ServerState) (g : List Int) (p : Int × Int) :
    (placeRow s g p).length = g.length := by
  simp only [placeRow]
  split <;> simp

theorem foldl_placeRow_length (s : ServerState) :
    ∀ (ps : List (Int × Int)) (g : List Int),
      (List.foldl (placeRow s) g ps).length = g.length := by
  intro ps
  induction ps with
  | nil => intro g; rfl
  | cons p ps ih =>
    intro g
    rw [List.foldl_cons, ih, placeRow_length]

theorem foldl_placeRow_get_ne (s : ServerState) :
    ∀ (ps : List (Int × Int)) (g : List Int) (i : Nat),
      (∀ p ∈ ps, p.2 * 32 + p.1 ≠ (i : Int)) →
      (List.foldl (placeRow s) g ps)[i]? = g[i]? := by
  intro ps
  induction ps with
  | nil => intro g i _; rfl
  | cons p ps ih =>
    intro g i h
    rw [List.foldl_cons, ih _ i fun q hq => h q (List.mem_cons_of_mem _ hq)]
    simp only [placeRow]
    split
    · rename_i hidx
      apply List.getElem?_set_ne
      have hp := h p (List.mem_cons_self _ _)
      omega
    · rfl

theorem foldl_placeRow_get_hit (s : ServerState) :
    ∀ (ps : List (Int × Int)) (g : List Int) (x y : Nat),
      x < 32 → y < 32 → g.length = 1024 →
      ((x : Int), (y : Int)) ∈ ps →
      (∀ p ∈ ps, p.2 * 32 + p.1 = (y : Int) * 32 + (x : Int) →
        p = ((x : Int), (y : Int))) →
      (List.foldl (placeRow s) g ps)[y * 32 + x]? =
        some ((s.canvas (x : Int) (y : Int)).color) := by
  intro ps
  induction ps with
  | nil =>
    intro g x y _ _ _ hmem _
    cases hmem
  | cons p ps ih =>
    intro g x y hx hy hlen hmem huniq
    rw [List.foldl_cons]
    by_cases hps : ((x : Int), (y : Int)) ∈ ps
    · exact ih _ x y hx hy (by rw [placeRow_length, hlen]) hps
        fun q hq => huniq q (List.mem_cons_of_mem _ hq)
    · have hp : p = ((x : Int), (y : Int)) := by
        rcases List.mem_cons.mp hmem with h | h
        · exact h.symm
        · exact absurd h hps
      subst hp
      rw [foldl_placeRow_get_ne s ps _ _ ?hne]
      case hne =>
        intro q hq he
        have he' : q.2 * 32 + q.1 = (y : Int) * 32 + (x : Int) := by
          rw [he]
          push_cast
          ring
        have hq' := huniq q (List.mem_cons_of_mem _ hq) he'
        exact hps (hq' ▸ hq)
      · simp only [placeRow]
        rw [if_pos (by omega : (0 : Int) ≤ (y : Int) * 32 + (x : Int) ∧
          (y : Int) * 32 + (x : Int) < 1024)]
        have ht : ((y : Int) * 32 + (x : Int)).toNat = y * 32 + x := by omega
        rw [ht]
        apply List.getElem?_set_self
        omega

theorem mem_canvasRows {x y : Nat} (hx : x < 32) (hy : y < 32) :
    ((x : Int), (y : Int)) ∈ canvasRows :=
  List.mem_flatMap.mpr ⟨x, List.mem_range.mpr hx,
    List.mem_map.mpr ⟨y, List.mem_range.mpr hy, rfl⟩⟩

theorem canvasRows_bounds {p : Int × Int} (hp : p ∈ canvasRows) :
    0 ≤ p.1 ∧ p.1 < 32 ∧ 0 ≤ p.2 ∧ p.2 < 32 := by
  obtain ⟨a, ha, hp2⟩ := List.mem_flatMap.mp hp
  obtain ⟨b, hb, hpe⟩ := List.mem_map.mp hp2
  have ha' := List.mem_range.mp ha
  have hb' := List.mem_range.mp hb
  subst hpe
  dsimp only
  omega

theorem canvasRows_idx_inj {x y : Nat} (hx : x < 32) (hy : y < 32) :
    ∀ p ∈ canvasRows, p.2 * 32 + p.1 = (y : Int) * 32 + (x : Int) →
      p = ((x : Int), (y : Int)) := by
  intro p hp he
  obtain ⟨h1, h2, h3, h4⟩ := canvasRows_bounds hp
  obtain ⟨a, b⟩ := p
  dsimp only at h1 h2 h3 h4 he
  have e1 : a = (x : Int) := by omega
  have e2 : b = (y : Int) := by omega
  rw [e1, e2]

/-- C7: GetGrid always returns exactly 1024 = 32*32 color indices, in
row-major order with y outer and x inner: the entry at index y*32 + x is
the color of cell (x, y). -/
theorem get_canvas_spec (s : ServerState) :
    (get_canvas s).length = 1024 ∧
    ∀ x y : Nat, x < 32 → y < 32 →
      (get_canvas s)[y * 32 + x]? =
        some ((s.canvas (x : Int) (y : Int)).color) := by
  constructor
  · unfold get_canvas
    rw [foldl_placeRow_length, List.length_replicate]
  · intro x y hx hy
    unfold get_canvas
    exact foldl_placeRow_get_hit s canvasRows _ x y hx hy
      (by rw [List.length_replicate]) (mem_canvasRows hx hy)
      (canvasRows_idx_inj hx hy)

/-- C7 witness: in the initial state the grid has 1024 entries and entry
5*32+3 is the color of cell (3, 5). -/
theorem get_canvas_spec_witness :
    (get_canvas initState).length = 1024 ∧
    (get_canvas initState)[5 * 32 + 3]? =
      some ((initState.canvas ((3 : Nat) : Int) ((5 : Nat) : Int)).color) :=
  ⟨(get_canvas_spec initState).1,
   (get_canvas_spec initState).2 3 5 (by decide) (by decide)⟩

end AnkiPlace
